import Mathlib

/-!
Verification of the session-management / message-processing layer of
mls-rs-uniffi-ios (a UniFFI-oriented wrapper around the mls-rs MLS engine).

The Rust sources under src/mls-rs-uniffi-ios/src are shallowly embedded here:

* errors from mls_rs_error.rs,
* the FFI data model and conversions from message.rs and group.rs,
* the reference in-memory group state storage from lib.rs (test module),
* the GroupFFI operations (commit, propose_update, process_incoming_message)
  from group.rs.

The cryptographic engine (the external mls-rs crate) is not part of the
sources; where an operation's behaviour is decided by the engine, the engine
primitive is modelled from the specification (each such definition carries a
doc comment starting with "Modelled from the spec:").  Bytes are modelled as
lists of naturals; wire encoding is a concrete executable codec modelled from
the spec's requirement that serialization round-trips exactly.
-/

deriving instance DecidableEq for Except

namespace MlsRsUniffi

/-- Byte strings are modelled as lists of naturals. -/
abbrev Bytes := List Nat

/-- Engine level errors (the variants of mls_rs::error::MlsError that appear
in the wrapper sources: UnexpectedMessageType, InvalidNodeIndex,
UnsupportedCipherSuite, UnsupportedProtocolVersion), plus an opaque code for
every other engine failure. -/
inductive MlsError where
  | unexpectedMessageType
  | invalidNodeIndex (index : Nat)
  | unsupportedCipherSuite (suite : Nat)
  | unsupportedProtocolVersion (version : Nat)
  | decodeFailure
  | engineFailure (code : Nat)
deriving DecidableEq, Repr

/-- The wrapper error enum, from mls_rs_error.rs (MlSrsError).  Payloads that
are opaque in the source (AnyError, codec errors, callback errors) are carried
as opaque data. -/
inductive MlSrsError where
  | mlsError (inner : MlsError)
  | anyError (inner : MlsError)
  | mlsCodecError (code : Nat)
  | unexpectedCallbackError (code : Nat)
  | unexpecteMessageFormat
  | inconsistentOptionalParameters
  | missingBasicCredential
  | unexpectedMessageTypeDetailed (expected : Nat) (actual : Nat)
  | unexpectedProposalSender
  | notImplemented
deriving DecidableEq, Repr

/-- A signing identity (public key and credential).  The SigningIdentityFFI
declaration is not present in the snapshot (its config.rs declaration is
commented out); it is treated as an opaque record of its two byte fields. -/
structure SigningIdentity where
  publicKey : Bytes
  credential : Bytes
deriving DecidableEq, Repr

/-- A group member: stable leaf index and current signing identity
(MLSMemberFFI in group.rs / mls_rs::group::Member). -/
structure Member where
  index : Nat
  signing_identity : SigningIdentity
deriving DecidableEq, Repr

/-- MLS content type tag for application data. -/
def ctApplication : Nat := 1
/-- MLS content type tag for proposals. -/
def ctProposal : Nat := 2
/-- MLS content type tag for commits. -/
def ctCommit : Nat := 3

/-- The decrypted view of a private (encrypted) MLS message envelope: the
fields of mls_rs::group::PrivateMessage that message.rs inspects
(content_type, authenticated_data) together with the generic envelope fields
(group_id, epoch) and the opaque ciphertext. -/
structure PrivateMessage where
  group_id : Bytes
  epoch : Nat
  content_type : Nat
  authenticated_data : Bytes
  ciphertext : Bytes
deriving DecidableEq, Repr

/-- Modelled from the spec: mls_rs::MlsMessage, the opaque wire-encoded
protocol message.  Only the generic envelope fields this layer inspects
(wire format, group_id, epoch, private-message content) are represented;
all other payloads are opaque bytes. -/
inductive MlsMessage where
  | privateMsg (pm : PrivateMessage)
  | publicMsg (group_id : Bytes) (epoch : Nat) (content_type : Nat) (payload : Bytes)
  | welcome (payload : Bytes)
  | groupInfo (group_id : Bytes) (payload : Bytes)
  | keyPackageMsg (payload : Bytes)
deriving DecidableEq, Repr

namespace MlsMessage

/-- Wire format tag of the message (MlsMessage::wire_format, as u16). -/
def wire_format : MlsMessage → Nat
  | .publicMsg _ _ _ _ => 1
  | .privateMsg _ => 2
  | .welcome _ => 3
  | .groupInfo _ _ => 4
  | .keyPackageMsg _ => 5

/-- Group id of the message, when the envelope carries one
(MlsMessage::group_id). -/
def group_id : MlsMessage → Option Bytes
  | .privateMsg pm => some pm.group_id
  | .publicMsg gid _ _ _ => some gid
  | .welcome _ => none
  | .groupInfo gid _ => some gid
  | .keyPackageMsg _ => none

/-- Epoch of the message, when the envelope carries one (MlsMessage::epoch). -/
def epoch : MlsMessage → Option Nat
  | .privateMsg pm => some pm.epoch
  | .publicMsg _ ep _ _ => some ep
  | _ => none

/-- The private-message view of the envelope (MlsMessage::private_message):
present exactly when the message is a private (encrypted) message. -/
def privateMessage : MlsMessage → Option PrivateMessage
  | .privateMsg pm => some pm
  | _ => none

end MlsMessage

/-- Length-prefixed encoding of a byte field inside a wire message. -/
def encField (b : Bytes) : Bytes := b.length :: b

/-- Decode a length-prefixed byte field, returning the field and the rest of
the input. -/
def decField : Bytes → Option (Bytes × Bytes)
  | [] => none
  | n :: rest => if n ≤ rest.length then some (rest.take n, rest.drop n) else none

theorem decField_encField_append (b t : Bytes) :
    decField (encField b ++ t) = some (b, t) := by
  simp [encField, decField, List.take_left, List.drop_left]

theorem decField_encField (b : Bytes) : decField (encField b) = some (b, []) := by
  have h := decField_encField_append b []
  simpa using h

/-- Modelled from the spec: the engine's wire encoding of an MlsMessage
(MlsMessage::to_bytes).  The spec requires only that serialization and
parsing round-trip exactly; a tag byte followed by length-prefixed fields. -/
def MlsMessage.encode : MlsMessage → Bytes
  | .privateMsg pm =>
      2 :: (encField pm.group_id ++ pm.epoch :: pm.content_type ::
        (encField pm.authenticated_data ++ encField pm.ciphertext))
  | .publicMsg gid ep ct payload =>
      1 :: (encField gid ++ ep :: ct :: encField payload)
  | .welcome payload => 3 :: encField payload
  | .groupInfo gid payload => 4 :: (encField gid ++ encField payload)
  | .keyPackageMsg payload => 5 :: encField payload

/-- Modelled from the spec: the engine's wire parser (MlsMessage::from_bytes),
the exact inverse of MlsMessage.encode; a trailing remainder is rejected. -/
def MlsMessage.decode (b : Bytes) : Option MlsMessage :=
  match b with
  | 1 :: rest =>
      match decField rest with
      | some (gid, rest1) =>
          match rest1 with
          | ep :: ct :: rest2 =>
              match decField rest2 with
              | some (payload, []) => some (.publicMsg gid ep ct payload)
              | _ => none
          | _ => none
      | none => none
  | 2 :: rest =>
      match decField rest with
      | some (gid, rest1) =>
          match rest1 with
          | ep :: ct :: rest2 =>
              match decField rest2 with
              | some (ad, rest3) =>
                  match decField rest3 with
                  | some (ctx, []) =>
                      some (.privateMsg ⟨gid, ep, ct, ad, ctx⟩)
                  | _ => none
              | none => none
          | _ => none
      | none => none
  | 3 :: rest =>
      match decField rest with
      | some (payload, []) => some (.welcome payload)
      | _ => none
  | 4 :: rest =>
      match decField rest with
      | some (gid, rest1) =>
          match decField rest1 with
          | some (payload, []) => some (.groupInfo gid payload)
          | _ => none
      | none => none
  | 5 :: rest =>
      match decField rest with
      | some (payload, []) => some (.keyPackageMsg payload)
      | _ => none
  | _ => none

theorem MlsMessage.decode_encode (m : MlsMessage) : decode (encode m) = some m := by
  cases m with
  | privateMsg pm =>
      simp [encode, decode, decField_encField_append, decField_encField]
  | publicMsg gid ep ct payload =>
      simp [encode, decode, decField_encField_append, decField_encField]
  | welcome payload =>
      simp [encode, decode, decField_encField]
  | groupInfo gid payload =>
      simp [encode, decode, decField_encField_append, decField_encField]
  | keyPackageMsg payload =>
      simp [encode, decode, decField_encField]

/-- Modelled from the spec: MlsMessage::from_bytes as a fallible engine call
(parse failure is a codec error). -/
def MlsMessage.fromBytes (b : Bytes) : Except MlsError MlsMessage :=
  match MlsMessage.decode b with
  | some m => .ok m
  | none => .error .decodeFailure

/-- Modelled from the spec: MlsMessage::to_bytes.  In the engine this is
fallible, but encoding of a well-formed message always succeeds; it is
modelled by the total encoder. -/
def MlsMessage.toBytes (m : MlsMessage) : Bytes := m.encode

/-- Modelled from the spec: mls_rs::KeyPackage — a published single-use
bundle of public key material and identity.  Fields follow the projection
made by message.rs (version raw value, cipher suite, HPKE init key,
leaf signing identity, extensions, signature). -/
structure KeyPackage where
  version : Nat
  cipher_suite : Nat
  hpke_init_key : Bytes
  signing_identity : SigningIdentity
  extensions : List (Nat × Bytes)
  signature : Bytes
deriving DecidableEq, Repr

/-- Supported cipher suites: the single variant of CipherSuiteFFI in
config/group_context.rs. -/
inductive CipherSuiteFFI where
  | curve25519ChaCha
deriving DecidableEq, Repr

/-- The raw u16 value of mls_rs::CipherSuite::CURVE25519_CHACHA. -/
def curve25519ChaChaRaw : Nat := 3

/-- Conversion TryFrom mls_rs::CipherSuite for CipherSuiteFFI
(config/group_context.rs): only CURVE25519_CHACHA is accepted, anything else
is an UnsupportedCipherSuite engine error. -/
def CipherSuiteFFI.tryFrom (suite : Nat) : Except MlSrsError CipherSuiteFFI :=
  if suite = curve25519ChaChaRaw then .ok .curve25519ChaCha
  else .error (.mlsError (.unsupportedCipherSuite suite))

/-- KeyPackageFFI from message.rs. -/
structure KeyPackageFFI where
  version : Nat
  cipher_suite : CipherSuiteFFI
  hpke_init_key : Bytes
  leaf_node_signing_identity : SigningIdentity
  extensions : List (Nat × Bytes)
  signature : Bytes
deriving DecidableEq, Repr

/-- Conversion TryFrom mls_rs::KeyPackage for KeyPackageFFI (message.rs):
fails exactly when the cipher suite is unsupported. -/
def KeyPackageFFI.tryFrom (value : KeyPackage) : Except MlSrsError KeyPackageFFI :=
  match CipherSuiteFFI.tryFrom value.cipher_suite with
  | .error e => .error e
  | .ok cs =>
      .ok { version := value.version
            cipher_suite := cs
            hpke_init_key := value.hpke_init_key
            leaf_node_signing_identity := value.signing_identity
            extensions := value.extensions
            signature := value.signature }

/-- Modelled from the spec: mls_rs::group::proposal::Proposal — a requested,
not-yet-applied change.  Beyond the Add/Update/Remove variants the FFI layer
represents, the engine enum has further variants (Psk, ReInit, ExternalInit,
GroupContextExtensions, Custom), carried here so that the conversion's
catch-all arm is meaningful. -/
inductive Proposal where
  | add (key_package : KeyPackage)
  | update (signing_identity : SigningIdentity)
  | remove (to_remove : Nat)
  | psk (psk_id : Bytes)
  | reInit
  | externalInit
  | groupContextExtensions
  | custom (data : Bytes)
deriving DecidableEq, Repr

/-- Modelled from the spec: mls_rs Sender — the sender field recorded in a
ProposalInfo. -/
inductive Sender where
  | member (index : Nat)
  | external (index : Nat)
  | newMemberCommit
  | newMemberProposal
deriving DecidableEq, Repr

/-- Modelled from the spec: mls_rs::group::ProposalSender — the sender of an
inbound proposal message. -/
inductive ProposalSender where
  | member (index : Nat)
  | external (index : Nat)
  | newMember
deriving DecidableEq, Repr

/-- Whether an inbound proposal's sender is a Member sender. -/
def ProposalSender.isMember : ProposalSender → Bool
  | .member _ => true
  | _ => false

/-- Modelled from the spec: mls_rs::mls_rules::ProposalInfo of Proposal — a
proposal together with its recorded sender. -/
structure ProposalInfo where
  proposal : Proposal
  sender : Sender
deriving DecidableEq, Repr

/-- Modelled from the spec: mls_rs::group::ProposalMessageDescription — the
engine's description of a received proposal message. -/
structure ProposalMessageDescription where
  proposal : Proposal
  sender : ProposalSender
  authenticated_data : Bytes
deriving DecidableEq, Repr

/-- ProposalFFI from message.rs: the external representation of a proposal. -/
inductive ProposalFFI where
  | add (kp : KeyPackageFFI)
  | update (new : SigningIdentity) (sender_index : Nat)
  | remove (index : Nat)
deriving DecidableEq, Repr

/-- Conversion TryFrom ProposalInfo of Proposal for ProposalFFI
(message.rs lines 200-222): Add converts its key package; Update requires a
Member sender (else UnexpectedProposalSender); every other proposal kind is
mapped to Remove with index 0 by the catch-all arm. -/
def ProposalFFI.tryFromInfo (value : ProposalInfo) : Except MlSrsError ProposalFFI :=
  match value.proposal with
  | .add k =>
      match KeyPackageFFI.tryFrom k with
      | .error e => .error e
      | .ok kp => .ok (.add kp)
  | .update u =>
      match value.sender with
      | .member index => .ok (.update u index)
      | _ => .error .unexpectedProposalSender
  | _ => .ok (.remove 0)

/-- Conversion TryFrom ProposalMessageDescription for ProposalFFI
(message.rs lines 224-246): identical shape, matching on ProposalSender. -/
def ProposalFFI.tryFromDescription (value : ProposalMessageDescription) :
    Except MlSrsError ProposalFFI :=
  match value.proposal with
  | .add k =>
      match KeyPackageFFI.tryFrom k with
      | .error e => .error e
      | .ok kp => .ok (.add kp)
  | .update u =>
      match value.sender with
      | .member index => .ok (.update u index)
      | _ => .error .unexpectedProposalSender
  | _ => .ok (.remove 0)

/-- Whether a proposal is an Add or an Update (the two kinds the conversion
represents faithfully). -/
def Proposal.isAddOrUpdate : Proposal → Bool
  | .add _ => true
  | .update _ => true
  | _ => false

/-- The conversion used when assembling proposal lists: a Rust
flat_map over the fallible try_into, which keeps successes and drops
failures — i.e. filterMap of the Option view of the result. -/
def convertProposalInfo (p : ProposalInfo) : Option ProposalFFI :=
  (ProposalFFI.tryFromInfo p).toOption

/-- CommitEffect from the engine (mls_rs::group::CommitEffect).  The payloads
of Removed and ReInit are not inspected by the FFI conversion and are kept
opaque. -/
inductive CommitEffect where
  | newEpoch (applied_proposals : List ProposalInfo) (unused_proposals : List ProposalInfo)
  | removed (remover : Nat)
  | reInit
deriving DecidableEq, Repr

/-- CommitEffectFFI from message.rs. -/
inductive CommitEffectFFI where
  | newEpoch (applied_proposals : List ProposalFFI) (unused_proposals : List ProposalFFI)
  | reInit
  | removed
deriving DecidableEq, Repr

/-- Conversion From mls_rs::group::CommitEffect for CommitEffectFFI
(message.rs lines 339-363): infallible; in the NewEpoch case each proposal
list is flat_mapped through the fallible conversion, silently dropping
entries that fail to convert. -/
def CommitEffectFFI.fromEffect : CommitEffect → CommitEffectFFI
  | .newEpoch applied unused =>
      .newEpoch (applied.filterMap convertProposalInfo)
        (unused.filterMap convertProposalInfo)
  | .removed _ => .removed
  | .reInit => .reInit

/-- MessageFFI from message.rs: the wrapper around one mls_rs::MlsMessage. -/
structure MessageFFI where
  inner : MlsMessage
deriving DecidableEq, Repr

namespace MessageFFI

/-- MessageFFI::new (message.rs): parse a message from bytes; a parse failure
is surfaced through into_any_error as the AnyError variant. -/
def new (bytes : Bytes) : Except MlSrsError MessageFFI :=
  match MlsMessage.fromBytes bytes with
  | .ok inner => .ok ⟨inner⟩
  | .error e => .error (.anyError e)

/-- MessageFFI::to_bytes (message.rs): serialize the wrapped message. -/
def to_bytes (m : MessageFFI) : Bytes := m.inner.toBytes

/-- MessageFFI::group_id (message.rs). -/
def group_id (m : MessageFFI) : Option Bytes := m.inner.group_id

/-- MessageFFI::wire_format (message.rs). -/
def wire_format (m : MessageFFI) : Nat := m.inner.wire_format

/-- MessageFFI::epoch (message.rs). -/
def epochOf (m : MessageFFI) : Option Nat := m.inner.epoch

/-- MessageFFI::private_message_content_type (message.rs). -/
def private_message_content_type (m : MessageFFI) : Option Nat :=
  (m.inner.privateMessage).map (·.content_type)

/-- MessageFFI::unchecked_auth_data (message.rs lines 54-92): treat the
message as a private envelope, check the declared outer content type, and if
the authenticated-data field is non-empty parse it as a nested Message and
check its content type. -/
def uncheckedAuthData (m : MessageFFI) (expected_outer_type : Nat)
    (expected_inner_type : Option Nat) : Except MlSrsError (Option MessageFFI) :=
  match m.inner.privateMessage with
  | none => .error (.mlsError .unexpectedMessageType)
  | some ciphertext =>
      if ciphertext.content_type ≠ expected_outer_type then
        .error (.unexpectedMessageTypeDetailed expected_outer_type ciphertext.content_type)
      else if ciphertext.authenticated_data = [] then
        .ok none
      else
        match MlsMessage.fromBytes ciphertext.authenticated_data with
        | .error e => .error (.mlsError e)
        | .ok inner_message =>
            let inner_content_type := (inner_message.privateMessage).map (·.content_type)
            if inner_content_type ≠ expected_inner_type then
              .error (.unexpectedMessageTypeDetailed (expected_inner_type.getD 0)
                (inner_content_type.getD 0))
            else
              .ok (some ⟨inner_message⟩)

end MessageFFI

/-- Modelled from the spec: mls_rs::group::CommitOutput, the engine's result
of building a commit. -/
structure CommitOutput where
  commit_message : MlsMessage
  welcome_messages : List MlsMessage
  external_commit_group_info : Option MlsMessage
  unused_proposals : List ProposalInfo
deriving DecidableEq, Repr

/-- CommitOutputFFI from group.rs. -/
structure CommitOutputFFI where
  commit_message : MessageFFI
  welcome_message : Option MessageFFI
  group_info : Option MessageFFI
  unused_proposals : List ProposalFFI
deriving DecidableEq, Repr

/-- Conversion TryFrom mls_rs::group::CommitOutput for CommitOutputFFI
(group.rs lines 63-90): takes the first welcome message, and flat_maps the
unused proposals through the fallible conversion, silently dropping entries
that fail to convert; the conversion itself always returns Ok. -/
def CommitOutputFFI.tryFrom (commit_output : CommitOutput) :
    Except MlSrsError CommitOutputFFI :=
  .ok { commit_message := ⟨commit_output.commit_message⟩
        welcome_message := commit_output.welcome_messages.head?.map (⟨·⟩)
        group_info := commit_output.external_commit_group_info.map (⟨·⟩)
        unused_proposals :=
          commit_output.unused_proposals.filterMap convertProposalInfo }

/-- Modelled from the spec: the engine-owned state of one group session
(mls_rs::Group): immutable group_id, current_epoch starting at 0,
current_member_index, the roster, the cache of not-yet-committed proposals,
and opaque cryptographic state. -/
structure GroupState where
  group_id : Bytes
  current_epoch : Nat
  current_member_index : Nat
  roster : List Member
  proposal_cache : List ProposalInfo
  crypto_state : Nat
deriving DecidableEq, Repr

/-- Modelled from the spec: mls_rs::Group::member_at_index — the roster
member at a given stable leaf index, when present. -/
def GroupState.memberAtIndex (g : GroupState) (index : Nat) : Option Member :=
  g.roster.find? (fun m => m.index == index)

/-- index_to_identity (group.rs lines 92-101): look up the member with the
given index, failing with the engine's InvalidNodeIndex error (wrapped by the
question-mark conversion into MlSrsError) when the roster has no such
member. -/
def indexToIdentity (g : GroupState) (index : Nat) :
    Except MlSrsError SigningIdentity :=
  match g.memberAtIndex index with
  | some member => .ok member.signing_identity
  | none => .error (.mlsError (.invalidNodeIndex index))

/-- An application message description returned by the engine
(mls_rs ApplicationMessageDescription): sender leaf index, decrypted data and
authenticated data. -/
structure ApplicationMessageDescription where
  sender_index : Nat
  data : Bytes
  authenticated_data : Bytes
deriving DecidableEq, Repr

/-- A commit description returned by the engine
(mls_rs CommitMessageDescription): committer leaf index and classified
effect. -/
structure CommitMessageDescription where
  committer : Nat
  effect : CommitEffect
deriving DecidableEq, Repr

/-- Modelled from the spec: mls_rs::group::ReceivedMessage, the engine's
typed result of processing one inbound message. -/
inductive ReceivedMessage where
  | applicationMessage (d : ApplicationMessageDescription)
  | commit (d : CommitMessageDescription)
  | proposal (d : ProposalMessageDescription)
  | groupInfo (payload : Bytes)
  | welcome
  | keyPackageMsg (kp : KeyPackage)
deriving DecidableEq, Repr

/-- ReceivedMessageFFI as declared in message.rs lines 102-134.  Note: the
ReceivedProposal variant is declared there with exactly two fields, sender
and proposal — it has no authenticated_data field, although the construction
site in group.rs lines 326-330 supplies one (see the C5 theorem). -/
inductive ReceivedMessageFFI where
  | applicationMessage (sender : SigningIdentity) (data : Bytes)
      (authenticated_data : Bytes)
  | commit (committer : SigningIdentity) (effect : CommitEffectFFI)
  | receivedProposal (sender : SigningIdentity) (proposal : ProposalFFI)
  | groupInfo
  | welcome
  | keyPackageMsg
deriving DecidableEq, Repr

/-- The observable outcome of a Rust call: an Ok value, an Err returned to
the caller, or a panic (as produced by the todo macro in group.rs line 322,
which aborts instead of returning). -/
inductive Outcome (α : Type) where
  | ok (value : α)
  | err (error : MlSrsError)
  | panics
deriving DecidableEq, Repr

/-- GroupFFI::process_incoming_message (group.rs lines 290-339): dispatch on
the engine's typed result.  The engine call itself
(mls_rs::Group::process_incoming_message) is external; its result is the
engineResult argument, and an engine error propagates through the
question-mark operator.  Application and commit senders are resolved through
index_to_identity; proposal senders other than Member hit the todo macro and
panic; the three control variants map to marker variants. -/
def GroupFFI.processIncomingMessage (g : GroupState)
    (engineResult : Except MlsError ReceivedMessage) :
    Outcome ReceivedMessageFFI :=
  match engineResult with
  | .error e => .err (.mlsError e)
  | .ok (.applicationMessage d) =>
      match indexToIdentity g d.sender_index with
      | .error e => .err e
      | .ok sender => .ok (.applicationMessage sender d.data d.authenticated_data)
  | .ok (.commit d) =>
      match indexToIdentity g d.committer with
      | .error e => .err e
      | .ok committer => .ok (.commit committer (CommitEffectFFI.fromEffect d.effect))
  | .ok (.proposal d) =>
      match d.sender with
      | .member index =>
          match indexToIdentity g index with
          | .error e => .err e
          | .ok sender =>
              match ProposalFFI.tryFromDescription d with
              | .error e => .err e
              | .ok proposal => .ok (.receivedProposal sender proposal)
      | _ => .panics
  | .ok (.groupInfo _) => .ok .groupInfo
  | .ok .welcome => .ok .welcome
  | .ok (.keyPackageMsg _) => .ok .keyPackageMsg

/-- Whether a cached proposal adds a member. -/
def ProposalInfo.isAdd (p : ProposalInfo) : Bool :=
  match p.proposal with
  | .add _ => true
  | _ => false

/-- Modelled from the spec: mls_rs::Group::commit — the engine's
commit-building primitive.  It incorporates all cached, still-valid
proposals (plus an implicit empty update if none are pending), advances
current_epoch by exactly 1 and clears the proposal cache on success, and
leaves the group unchanged on failure; a welcome message is present iff the
commit added at least one member.  The engine's internal failure condition
(crypto or storage) is abstracted by the explicit failure argument. -/
def GroupState.engineCommit (g : GroupState) (failure : Option MlsError) :
    Except MlsError (CommitOutput × GroupState) :=
  match failure with
  | some e => .error e
  | none =>
      .ok ({ commit_message := .publicMsg g.group_id g.current_epoch ctCommit []
             welcome_messages :=
               if g.proposal_cache.any ProposalInfo.isAdd then [.welcome []] else []
             external_commit_group_info := none
             unused_proposals := [] },
           { g with current_epoch := g.current_epoch + 1, proposal_cache := [] })

/-- GroupFFI::commit (group.rs lines 130-134): lock the group, run the engine
commit, and convert the result.  An engine failure propagates through the
question-mark operator with the group left as the engine left it; on success
the engine result is converted with try_into. -/
def GroupFFI.commit (g : GroupState) (failure : Option MlsError) :
    Except MlSrsError CommitOutputFFI × GroupState :=
  match g.engineCommit failure with
  | .error e => (.error (.mlsError e), g)
  | .ok (commit_output, g') =>
      match CommitOutputFFI.tryFrom commit_output with
      | .error e => (.error e, g')
      | .ok r => (.ok r, g')

/-- The session's own current signing identity: the roster entry at
current_member_index (a well-formed session always has one; the fallback is
the empty identity). -/
def GroupState.currentIdentity (g : GroupState) : SigningIdentity :=
  match g.memberAtIndex g.current_member_index with
  | some m => m.signing_identity
  | none => ⟨[], []⟩

/-- The wire message produced for an update proposal rotating to (or
re-asserting) the given signing identity: a private message for the group's
current epoch carrying the caller-supplied authenticated data. -/
def updateProposalMessage (g : GroupState) (si : SigningIdentity) (ad : Bytes) :
    MlsMessage :=
  .privateMsg ⟨g.group_id, g.current_epoch, ctProposal, ad,
    si.publicKey ++ si.credential⟩

/-- Modelled from the spec: mls_rs::Group::propose_update — produce an
uncommitted plain update proposal (same signing identity, fresh leaf keys),
add it to the local proposal cache, and do not advance the epoch. -/
def GroupState.engineProposeUpdate (g : GroupState) (authenticated_data : Bytes) :
    MlsMessage × GroupState :=
  (updateProposalMessage g g.currentIdentity authenticated_data,
   { g with proposal_cache := g.proposal_cache ++
       [⟨.update g.currentIdentity, .member g.current_member_index⟩] })

/-- Modelled from the spec: mls_rs::Group::propose_update_with_identity —
produce an uncommitted identity-rotating update proposal carrying the new
signing identity, add it to the local proposal cache, and do not advance the
epoch.  The signer secret is consumed by the engine's signing and does not
appear in the observable result. -/
def GroupState.engineProposeUpdateWithIdentity (g : GroupState) (_signer : Bytes)
    (signing_identity : SigningIdentity) (authenticated_data : Bytes) :
    MlsMessage × GroupState :=
  (updateProposalMessage g signing_identity authenticated_data,
   { g with proposal_cache := g.proposal_cache ++
       [⟨.update signing_identity, .member g.current_member_index⟩] })

/-- GroupFFI::propose_update (group.rs lines 370-390): dispatch on the
optional signer and signing identity — both present rotates identity, both
absent proposes a plain update, and any mismatched pairing is the
InconsistentOptionalParameters usage error. -/
def GroupFFI.proposeUpdate (g : GroupState) (signer : Option Bytes)
    (signing_identity : Option SigningIdentity) (authenticated_data : Bytes) :
    Except MlSrsError MessageFFI × GroupState :=
  match signer, signing_identity with
  | some s, some si =>
      let (message, g') := g.engineProposeUpdateWithIdentity s si authenticated_data
      (.ok ⟨message⟩, g')
  | none, none =>
      let (message, g') := g.engineProposeUpdate authenticated_data
      (.ok ⟨message⟩, g')
  | _, _ => (.error .inconsistentOptionalParameters, g)

/-- EpochRecordFFI from config/group_state.rs: a unique epoch identifier
within a particular group, with its data. -/
structure EpochRecordFFI where
  id : Nat
  data : Bytes
deriving DecidableEq, Repr

/-- mls_rs_core::group::EpochRecord (the engine-side record; conversions in
config/group_state.rs are field-for-field). -/
structure EpochRecord where
  id : Nat
  data : Bytes
deriving DecidableEq, Repr

/-- Conversion From EpochRecordFFI for mls_rs_core EpochRecord
(config/group_state.rs lines 202-206). -/
def EpochRecordFFI.toCore (r : EpochRecordFFI) : EpochRecord := ⟨r.id, r.data⟩

/-- Conversion From mls_rs_core EpochRecord for EpochRecordFFI
(config/group_state.rs lines 196-200). -/
def EpochRecord.toFFI (r : EpochRecord) : EpochRecordFFI := ⟨r.id, r.data⟩

/-- MockGroupStateData from the test module of lib.rs: one group's snapshot
and list of epoch records. -/
structure MockGroupStateData where
  state : Bytes
  epoch_data : List EpochRecord
deriving DecidableEq, Repr

/-- The default MockGroupStateData (derive(Default) in lib.rs). -/
def MockGroupStateData.default : MockGroupStateData := ⟨[], []⟩

/-- The HashMap of CustomGroupStateStorage (lib.rs), modelled as an
association list from group id to MockGroupStateData with at most one entry
per key. -/
abbrev Store := List (Bytes × MockGroupStateData)

/-- HashMap::get on the store. -/
def Store.getGroup (s : Store) (group_id : Bytes) : Option MockGroupStateData :=
  (s.find? (fun p => p.1 == group_id)).map (·.2)

/-- HashMap insertion (the effect of entry().or_default() followed by
mutation under the same key): replace the entry when present, else add it. -/
def Store.setGroup : Store → Bytes → MockGroupStateData → Store
  | [], gid, g => [(gid, g)]
  | (k, v) :: rest, gid, g =>
      if k == gid then (k, g) :: rest else (k, v) :: Store.setGroup rest gid g

/-- The in-place update loop of CustomGroupStateStorage::write: overwrite the
data of the first record whose id matches, leaving the rest untouched (the
break after the first hit). -/
def updateFirstRecord : List EpochRecord → EpochRecord → List EpochRecord
  | [], _ => []
  | r :: rs, u => if r.id == u.id then ⟨r.id, u.data⟩ :: rs else r :: updateFirstRecord rs u

/-- CustomGroupStateStorage::state (lib.rs lines 324-327). -/
def Store.stateQuery (s : Store) (group_id : Bytes) :
    Except MlSrsError (Option Bytes) :=
  .ok ((s.getGroup group_id).map (·.state))

/-- CustomGroupStateStorage::epoch (lib.rs lines 329-339): the data of the
first record with the requested id, for a known group. -/
def Store.epochQuery (s : Store) (group_id : Bytes) (epoch_id : Nat) :
    Except MlSrsError (Option Bytes) :=
  match s.getGroup group_id with
  | some group =>
      .ok (((group.epoch_data.find? (fun r => r.id == epoch_id))).map (·.data))
  | none => .ok none

/-- CustomGroupStateStorage::write (lib.rs lines 341-366): get or create the
group entry, overwrite its snapshot, push every insert onto the end of the
record list, then apply each update in place to the first matching record. -/
def Store.write (s : Store) (group_id : Bytes) (group_state : Bytes)
    (epoch_inserts : List EpochRecordFFI) (epoch_updates : List EpochRecordFFI) :
    Store :=
  let group := (s.getGroup group_id).getD MockGroupStateData.default
  let group := { group with state := group_state }
  let group := { group with
    epoch_data := group.epoch_data ++ epoch_inserts.map EpochRecordFFI.toCore }
  let group := { group with
    epoch_data :=
      epoch_updates.foldl (fun l u => updateFirstRecord l u.toCore) group.epoch_data }
  s.setGroup group_id group

/-- CustomGroupStateStorage::max_epoch_id (lib.rs lines 368-374): the id of
the last record in the group's epoch list, none for an unknown group (or a
group with no records). -/
def Store.maxEpochId (s : Store) (group_id : Bytes) :
    Except MlSrsError (Option Nat) :=
  .ok (((s.getGroup group_id).bind (fun g => g.epoch_data.getLast?)).map (·.id))

/-! Concrete fixtures used by witnesses and counterexamples. -/

/-- A sample identity for the group creator. -/
def aliceIdentity : SigningIdentity := ⟨[1], [10]⟩

/-- A sample identity for the second member. -/
def bobIdentity : SigningIdentity := ⟨[2], [20]⟩

/-- A rotated identity for the second member. -/
def bobNewIdentity : SigningIdentity := ⟨[3], [30]⟩

/-- A sample two-member group session state at epoch 4. -/
def sampleGroup : GroupState :=
  ⟨[7, 7], 4, 0, [⟨0, aliceIdentity⟩, ⟨1, bobIdentity⟩], [], 0⟩

/-- A proposal whose conversion to ProposalFFI fails: an Update recorded with
a non-Member sender. -/
def badUpdateInfo : ProposalInfo := ⟨.update bobNewIdentity, .external 1⟩

/-- A remove proposal recorded with a Member sender. -/
def removeInfo : ProposalInfo := ⟨.remove 3, .member 0⟩

/-- A sample commit wire message. -/
def sampleCommitMessage : MlsMessage := .publicMsg [7, 7] 4 ctCommit [8]

/-- An inbound proposal description whose sender is External. -/
def externalSenderDescription : ProposalMessageDescription :=
  ⟨.update bobNewIdentity, .external 1, [9]⟩

/-- An inbound proposal description from member 1 with non-empty
authenticated data. -/
def memberProposalDescription : ProposalMessageDescription :=
  ⟨.update bobNewIdentity, .member 1, [9, 9]⟩

/-- A nested private commit message, used as stapled authenticated data. -/
def innerPrivate : MlsMessage := .privateMsg ⟨[7, 7], 4, ctCommit, [], [5]⟩

/-- A private application message with empty authenticated data. -/
def outerPlain : MessageFFI := ⟨.privateMsg ⟨[7, 7], 4, ctApplication, [], [6]⟩⟩

/-- A private application message whose authenticated data is the encoding
of innerPrivate (the stapling pattern). -/
def outerStapled : MessageFFI :=
  ⟨.privateMsg ⟨[7, 7], 4, ctApplication, innerPrivate.toBytes, [6]⟩⟩

/-- A sample group id for the storage claims. -/
def gid0 : Bytes := [7, 7]

/-- A store built by inserting epoch record 5 and then epoch record 3 (in
that order) for gid0. -/
def storeOutOfOrder : Store :=
  Store.write (Store.write [] gid0 [] [⟨5, [1]⟩] []) gid0 [] [⟨3, [2]⟩] []

/-! Supporting lemma shared by the claims about commit conversion. -/

theorem commitOutputFFI_tryFrom_total (co : CommitOutput) :
    ∃ r : CommitOutputFFI, CommitOutputFFI.tryFrom co = .ok r :=
  ⟨_, rfl⟩

/-! Claim theorems. -/

/-- C1: a successful call to GroupFFI::commit advances current_epoch by
exactly 1 and clears the proposal cache, and a failed call leaves the
session state unchanged (no partial epoch advance). -/
theorem commit_epoch_and_cache (g : GroupState) (failure : Option MlsError) :
    (∀ r : CommitOutputFFI, (GroupFFI.commit g failure).1 = .ok r →
      (GroupFFI.commit g failure).2.current_epoch = g.current_epoch + 1 ∧
      (GroupFFI.commit g failure).2.proposal_cache = []) ∧
    (∀ e : MlSrsError, (GroupFFI.commit g failure).1 = .error e →
      (GroupFFI.commit g failure).2 = g) := by
  cases failure with
  | none =>
      refine ⟨fun r _ => ⟨rfl, rfl⟩, fun e h => ?_⟩
      simp [GroupFFI.commit, GroupState.engineCommit, CommitOutputFFI.tryFrom] at h
  | some err =>
      refine ⟨fun r h => ?_, fun e _ => rfl⟩
      simp [GroupFFI.commit, GroupState.engineCommit] at h

theorem commit_epoch_and_cache_witness :
    ((GroupFFI.commit sampleGroup none).2.current_epoch =
        sampleGroup.current_epoch + 1 ∧
      (GroupFFI.commit sampleGroup none).2.proposal_cache = []) ∧
    (GroupFFI.commit sampleGroup (some (.engineFailure 1))).2 = sampleGroup :=
  ⟨(commit_epoch_and_cache sampleGroup none).1
      ⟨⟨.publicMsg [7, 7] 4 ctCommit []⟩, none, none, []⟩ (by decide),
   (commit_epoch_and_cache sampleGroup (some (.engineFailure 1))).2
      (.mlsError (.engineFailure 1)) (by decide)⟩

/-- C2 counterexample: on an inbound proposal whose sender is External, the
call hits the todo macro and panics; it does not return the distinct typed
error the claim requires. -/
theorem process_external_sender_cex :
    GroupFFI.processIncomingMessage sampleGroup
        (.ok (.proposal externalSenderDescription)) = .panics ∧
    GroupFFI.processIncomingMessage sampleGroup
        (.ok (.proposal externalSenderDescription)) ≠
      .err .unexpectedProposalSender := by
  decide

/-- C2 (amended): for every inbound proposal message whose sender is not a
Member sender, process_incoming_message panics through the todo
unreachable-code marker (group.rs line 322) instead of returning a typed
error; it does not silently succeed. -/
theorem process_nonmember_sender_panics (g : GroupState)
    (d : ProposalMessageDescription) (h : d.sender.isMember = false) :
    GroupFFI.processIncomingMessage g (.ok (.proposal d)) = .panics := by
  cases hs : d.sender with
  | member index => rw [hs] at h; simp [ProposalSender.isMember] at h
  | external index => simp [GroupFFI.processIncomingMessage, hs]
  | newMember => simp [GroupFFI.processIncomingMessage, hs]

theorem process_nonmember_sender_panics_witness :
    GroupFFI.processIncomingMessage sampleGroup
        (.ok (.proposal externalSenderDescription)) = .panics :=
  process_nonmember_sender_panics sampleGroup externalSenderDescription (by decide)

/-- C3: when assembling a CommitOutput's unused_proposals list or the
proposal lists inside a CommitEffect NewEpoch, every individual proposal
whose conversion fails is dropped from the resulting list while the call
still succeeds with the remaining proposals. -/
theorem unconvertible_proposals_dropped
    (cm : MlsMessage) (wm : List MlsMessage) (gi : Option MlsMessage)
    (l1 l2 a1 a2 u1 u2 : List ProposalInfo) (p : ProposalInfo) (e : MlSrsError)
    (h : ProposalFFI.tryFromInfo p = .error e) :
    (∃ r : CommitOutputFFI,
      CommitOutputFFI.tryFrom ⟨cm, wm, gi, l1 ++ p :: l2⟩ = .ok r ∧
      r.unused_proposals =
        l1.filterMap convertProposalInfo ++ l2.filterMap convertProposalInfo) ∧
    CommitEffectFFI.fromEffect (.newEpoch (a1 ++ p :: a2) (u1 ++ p :: u2)) =
      .newEpoch
        (a1.filterMap convertProposalInfo ++ a2.filterMap convertProposalInfo)
        (u1.filterMap convertProposalInfo ++ u2.filterMap convertProposalInfo) := by
  have hp : convertProposalInfo p = none := by
    simp [convertProposalInfo, h, Except.toOption]
  constructor
  · exact ⟨_, rfl, by
      simp [CommitOutputFFI.tryFrom, List.filterMap_append, List.filterMap_cons, hp]⟩
  · simp [CommitEffectFFI.fromEffect, List.filterMap_append, List.filterMap_cons, hp]

theorem unconvertible_proposals_dropped_witness :
    (∃ r : CommitOutputFFI,
      CommitOutputFFI.tryFrom
          ⟨sampleCommitMessage, [], none, [removeInfo] ++ badUpdateInfo :: [removeInfo]⟩ =
        .ok r ∧
      r.unused_proposals =
        [removeInfo].filterMap convertProposalInfo ++
          [removeInfo].filterMap convertProposalInfo) ∧
    CommitEffectFFI.fromEffect
        (.newEpoch ([removeInfo] ++ badUpdateInfo :: [removeInfo])
          ([] ++ badUpdateInfo :: [])) =
      .newEpoch
        ([removeInfo].filterMap convertProposalInfo ++
          [removeInfo].filterMap convertProposalInfo)
        ([].filterMap convertProposalInfo ++ [].filterMap convertProposalInfo) :=
  unconvertible_proposals_dropped sampleCommitMessage [] none
    [removeInfo] [removeInfo] [removeInfo] [removeInfo] [] []
    badUpdateInfo .unexpectedProposalSender (by decide)

/-- C4: for a private message, unchecked_auth_data fails with an error
carrying exactly (expected_outer_type, actual outer content type) on an outer
type mismatch; returns none when the outer type matches and the
authenticated-data field is empty; and when that field is non-empty, parses
it as a Message and fails carrying both values when the inner content type
differs from expected_inner_type. -/
theorem unchecked_auth_data_spec (m : MessageFFI) (pm : PrivateMessage)
    (eo : Nat) (ei : Option Nat) (hm : m.inner.privateMessage = some pm) :
    (pm.content_type ≠ eo →
      m.uncheckedAuthData eo ei =
        .error (.unexpectedMessageTypeDetailed eo pm.content_type)) ∧
    (pm.content_type = eo → pm.authenticated_data = [] →
      m.uncheckedAuthData eo ei = .ok none) ∧
    (∀ inner : MlsMessage, pm.content_type = eo → pm.authenticated_data ≠ [] →
      MlsMessage.fromBytes pm.authenticated_data = .ok inner →
      (inner.privateMessage).map (·.content_type) ≠ ei →
      m.uncheckedAuthData eo ei =
        .error (.unexpectedMessageTypeDetailed (ei.getD 0)
          (((inner.privateMessage).map (·.content_type)).getD 0))) ∧
    (∀ inner : MlsMessage, ∀ v w : Nat,
      pm.content_type = eo → pm.authenticated_data ≠ [] →
      MlsMessage.fromBytes pm.authenticated_data = .ok inner →
      ei = some v → (inner.privateMessage).map (·.content_type) = some w →
      v ≠ w →
      m.uncheckedAuthData eo ei = .error (.unexpectedMessageTypeDetailed v w)) := by
  refine ⟨fun hne => ?_, fun heq had => ?_, fun inner heq had hparse hne => ?_,
    fun inner v w heq had hparse hev hiw hvw => ?_⟩
  · simp [MessageFFI.uncheckedAuthData, hm, hne]
  · simp [MessageFFI.uncheckedAuthData, hm, heq, had]
  · simp [MessageFFI.uncheckedAuthData, hm, heq, had, hparse, hne]
  · have hwv : w ≠ v := Ne.symm hvw
    simp [MessageFFI.uncheckedAuthData, hm, heq, had, hparse, hev, hiw, hwv]

theorem unchecked_auth_data_spec_witness :
    MessageFFI.uncheckedAuthData outerPlain 2 none =
        .error (.unexpectedMessageTypeDetailed 2 1) ∧
    MessageFFI.uncheckedAuthData outerPlain 1 none = .ok none ∧
    MessageFFI.uncheckedAuthData outerStapled 1 (some 9) =
        .error (.unexpectedMessageTypeDetailed 9 3) :=
  ⟨(unchecked_auth_data_spec outerPlain ⟨[7, 7], 4, ctApplication, [], [6]⟩
      2 none rfl).1 (by decide),
   (unchecked_auth_data_spec outerPlain ⟨[7, 7], 4, ctApplication, [], [6]⟩
      1 none rfl).2.1 rfl rfl,
   (unchecked_auth_data_spec outerStapled
      ⟨[7, 7], 4, ctApplication, innerPrivate.toBytes, [6]⟩ 1 (some 9)
      rfl).2.2.2 innerPrivate 9 3 rfl (by decide)
      (by simp [MlsMessage.fromBytes, MlsMessage.toBytes, MlsMessage.decode_encode])
      rfl (by decide) (by decide)⟩

/-- C5: evaluation of process_incoming_message at an accepted member-sender
proposal carrying non-empty authenticated data.  The call returns exactly one
ReceivedMessageFFI variant — the ReceivedProposal variant with the resolved
sender and the proposal — but the variant declared in message.rs lines
102-134 has no authenticated_data field to carry the message's
authenticated data, although the construction site in group.rs lines 324-330
supplies that field (the declaration and its use site contradict each
other). -/
theorem process_proposal_lacks_auth_data :
    GroupFFI.processIncomingMessage sampleGroup
        (.ok (.proposal memberProposalDescription)) =
      .ok (.receivedProposal bobIdentity (.update bobNewIdentity 1)) := by
  decide

/-- C6: propose_update with a signer and no signing identity, or a signing
identity and no signer, fails with the InconsistentOptionalParameters usage
error, and only those mismatched pairings do; both present produces an
identity-rotating update proposal, neither produces a plain update
proposal. -/
theorem propose_update_pairings (g : GroupState) (signer : Option Bytes)
    (si : Option SigningIdentity) (ad : Bytes) :
    ((GroupFFI.proposeUpdate g signer si ad).1 =
        .error .inconsistentOptionalParameters ↔ signer.isSome ≠ si.isSome) ∧
    (∀ s i, signer = some s → si = some i →
      (GroupFFI.proposeUpdate g signer si ad).1 =
          .ok ⟨updateProposalMessage g i ad⟩ ∧
      (GroupFFI.proposeUpdate g signer si ad).2.proposal_cache =
        g.proposal_cache ++ [⟨.update i, .member g.current_member_index⟩]) ∧
    (signer = none → si = none →
      (GroupFFI.proposeUpdate g signer si ad).1 =
          .ok ⟨updateProposalMessage g g.currentIdentity ad⟩ ∧
      (GroupFFI.proposeUpdate g signer si ad).2.proposal_cache =
        g.proposal_cache ++
          [⟨.update g.currentIdentity, .member g.current_member_index⟩]) := by
  cases signer with
  | none =>
      cases si with
      | none =>
          refine ⟨?_, ?_, ?_⟩
          · simp [GroupFFI.proposeUpdate, GroupState.engineProposeUpdate]
          · intro s i hs; simp at hs
          · intro _ _
            exact ⟨rfl, rfl⟩
      | some i =>
          refine ⟨?_, ?_, ?_⟩
          · simp [GroupFFI.proposeUpdate]
          · intro s i hs; simp at hs
          · intro _ hi; simp at hi
  | some s =>
      cases si with
      | none =>
          refine ⟨?_, ?_, ?_⟩
          · simp [GroupFFI.proposeUpdate]
          · intro s' i' _ hi; simp at hi
          · intro hs; simp at hs
      | some i =>
          refine ⟨?_, ?_, ?_⟩
          · simp [GroupFFI.proposeUpdate, GroupState.engineProposeUpdateWithIdentity]
          · intro s' i' hs hi
            cases hs; cases hi
            exact ⟨rfl, rfl⟩
          · intro hs; simp at hs

theorem propose_update_pairings_witness :
    ((GroupFFI.proposeUpdate sampleGroup (some [4]) (some bobNewIdentity) []).1 =
        .ok ⟨updateProposalMessage sampleGroup bobNewIdentity []⟩ ∧
      (GroupFFI.proposeUpdate sampleGroup (some [4]) (some bobNewIdentity)
          []).2.proposal_cache =
        sampleGroup.proposal_cache ++
          [⟨.update bobNewIdentity, .member sampleGroup.current_member_index⟩]) ∧
    ((GroupFFI.proposeUpdate sampleGroup none none []).1 =
        .ok ⟨updateProposalMessage sampleGroup sampleGroup.currentIdentity []⟩ ∧
      (GroupFFI.proposeUpdate sampleGroup none none []).2.proposal_cache =
        sampleGroup.proposal_cache ++
          [⟨.update sampleGroup.currentIdentity,
            .member sampleGroup.current_member_index⟩]) ∧
    (GroupFFI.proposeUpdate sampleGroup (some [4]) none []).1 =
        .error .inconsistentOptionalParameters :=
  ⟨(propose_update_pairings sampleGroup (some [4]) (some bobNewIdentity) []).2.1
      [4] bobNewIdentity rfl rfl,
   (propose_update_pairings sampleGroup none none []).2.2 rfl rfl,
   (propose_update_pairings sampleGroup (some [4]) none []).1.mpr (by decide)⟩

/-- C7: for every successfully parsed Message x, parsing the bytes produced
by serializing x yields a message equal to x. -/
theorem message_roundtrip (b : Bytes) (m : MessageFFI)
    (_h : MessageFFI.new b = .ok m) :
    MessageFFI.new m.to_bytes = .ok m := by
  simp [MessageFFI.new, MessageFFI.to_bytes, MlsMessage.fromBytes,
    MlsMessage.toBytes, MlsMessage.decode_encode]

theorem message_roundtrip_witness :
    MessageFFI.new (MessageFFI.to_bytes ⟨innerPrivate⟩) = .ok ⟨innerPrivate⟩ :=
  message_roundtrip innerPrivate.toBytes ⟨innerPrivate⟩
    (by simp [MessageFFI.new, MlsMessage.fromBytes, MlsMessage.toBytes,
      MlsMessage.decode_encode])

/-- C8 counterexample: after inserting epoch record 5 and then epoch record
3 for the same group, max_epoch_id returns Some 3 — the id of the most
recently inserted record — not Some 5, the highest epoch id ever inserted,
so max_epoch_id is not the highest epoch id ever inserted. -/
theorem max_epoch_id_not_highest_cex :
    Store.maxEpochId storeOutOfOrder gid0 = .ok (some 3) ∧
    Store.maxEpochId storeOutOfOrder gid0 ≠ .ok (some 5) := by
  decide

/-- C8 (amended): for every group id gid and data d, d2, starting from the
empty store: after write(gid, state, inserts := a record with id 5 and data
d, updates := none), epoch(gid,5) returns Some d; after a subsequent
write(gid, state, inserts := none, updates := the record with id 5 and data
d2), epoch(gid,5) returns Some d2; max_epoch_id(gid) returns Some 5 in both
cases, where max_epoch_id is the id of the most recently inserted epoch
record for the group (the last record in its list), or none if the group is
unknown. -/
theorem storage_write_epoch_maxid (gid st st2 d d2 : Bytes) :
    Store.epochQuery (Store.write [] gid st [⟨5, d⟩] []) gid 5 = .ok (some d) ∧
    Store.maxEpochId (Store.write [] gid st [⟨5, d⟩] []) gid = .ok (some 5) ∧
    Store.epochQuery
        (Store.write (Store.write [] gid st [⟨5, d⟩] []) gid st2 [] [⟨5, d2⟩])
        gid 5 = .ok (some d2) ∧
    Store.maxEpochId
        (Store.write (Store.write [] gid st [⟨5, d⟩] []) gid st2 [] [⟨5, d2⟩])
        gid = .ok (some 5) ∧
    Store.maxEpochId [] gid = .ok none := by
  simp [Store.write, Store.getGroup, Store.setGroup, Store.epochQuery,
    Store.maxEpochId, MockGroupStateData.default, EpochRecordFFI.toCore,
    updateFirstRecord]

/-- C9: in both conversions into ProposalFFI (from a ProposalInfo and from a
ProposalMessageDescription), every proposal that is neither an Add nor an
Update — including every Remove proposal, whatever member it removes —
converts to the Remove variant with index 0. -/
theorem other_proposals_become_remove_zero (p : Proposal) (s : Sender)
    (ps : ProposalSender) (ad : Bytes) (h : p.isAddOrUpdate = false) :
    ProposalFFI.tryFromInfo ⟨p, s⟩ = .ok (.remove 0) ∧
    ProposalFFI.tryFromDescription ⟨p, ps, ad⟩ = .ok (.remove 0) := by
  cases p with
  | add kp => simp [Proposal.isAddOrUpdate] at h
  | update si2 => simp [Proposal.isAddOrUpdate] at h
  | remove j => exact ⟨rfl, rfl⟩
  | psk pid => exact ⟨rfl, rfl⟩
  | reInit => exact ⟨rfl, rfl⟩
  | externalInit => exact ⟨rfl, rfl⟩
  | groupContextExtensions => exact ⟨rfl, rfl⟩
  | custom dta => exact ⟨rfl, rfl⟩

theorem other_proposals_become_remove_zero_witness :
    ProposalFFI.tryFromInfo ⟨.remove 7, .member 0⟩ = .ok (.remove 0) ∧
    ProposalFFI.tryFromDescription ⟨.remove 7, .member 0, []⟩ =
      .ok (.remove 0) :=
  other_proposals_become_remove_zero (.remove 7) (.member 0) (.member 0) []
    (by decide)

/-- C10: for an inbound application or commit message whose sender or
committer leaf index has no corresponding roster member,
process_incoming_message returns the typed invalid-node-index error to the
caller. -/
theorem unknown_index_typed_error (g : GroupState)
    (d : ApplicationMessageDescription) (c : CommitMessageDescription) :
    (g.memberAtIndex d.sender_index = none →
      GroupFFI.processIncomingMessage g (.ok (.applicationMessage d)) =
        .err (.mlsError (.invalidNodeIndex d.sender_index))) ∧
    (g.memberAtIndex c.committer = none →
      GroupFFI.processIncomingMessage g (.ok (.commit c)) =
        .err (.mlsError (.invalidNodeIndex c.committer))) := by
  constructor <;> intro h <;>
    simp [GroupFFI.processIncomingMessage, indexToIdentity, h]

theorem unknown_index_typed_error_witness :
    GroupFFI.processIncomingMessage sampleGroup
        (.ok (.applicationMessage ⟨5, [1], []⟩)) =
      .err (.mlsError (.invalidNodeIndex 5)) ∧
    GroupFFI.processIncomingMessage sampleGroup (.ok (.commit ⟨6, .reInit⟩)) =
      .err (.mlsError (.invalidNodeIndex 6)) :=
  ⟨(unknown_index_typed_error sampleGroup ⟨5, [1], []⟩ ⟨6, .reInit⟩).1 (by decide),
   (unknown_index_typed_error sampleGroup ⟨5, [1], []⟩ ⟨6, .reInit⟩).2 (by decide)⟩

end MlsRsUniffi
